import Mathlib

/-!
Shallow embedding of the tutorial-generation pipeline from `nodes.py` and
`flow.py`.  Python strings are modelled as `List Char`; Python `int` values as
`Int`; YAML scalars that may appear as index entries as the inductive
`IdxEntry`; raised `ValueError`s as an explicit error type threaded through
`Except`.  The external text generator (`call_llm`) and the YAML parser
(`yaml.safe_load`) are modelled as oracle parameters, since their replies are
unconstrained inputs to the validation code under study.
-/

/-! ## Python string primitives -/

/-- Model of Python `str.strip()` (with no argument): remove leading and
trailing whitespace characters.  `Char.isWhitespace` covers the whitespace
characters that occur in this code base's data (space, tab, CR, LF). -/
def pyStrip (s : List Char) : List Char :=
  ((s.dropWhile Char.isWhitespace).reverse.dropWhile Char.isWhitespace).reverse

/-- Model of Python `s.startswith(p)`. -/
def pyStartsWith : List Char → List Char → Bool
  | _, [] => true
  | [], _ :: _ => false
  | c :: cs, p :: ps => c = p && pyStartsWith cs ps

/-- Decimal digit run to a natural number (all characters must be digits). -/
def pyDigits (s : List Char) : Option Nat :=
  if s = [] then none
  else if s.all Char.isDigit then
    some (s.foldl (fun n c => 10 * n + (c.toNat - 48)) 0)
  else none

/-- Model of Python `int(s)` on a string: strip whitespace, then an optional
sign followed by a nonempty run of decimal digits; anything else raises
`ValueError`, modelled as `none`.  (Python additionally allows underscores
between digits; no value in this development depends on that case.) -/
def pyInt (s : List Char) : Option Int :=
  match pyStrip s with
  | '+' :: rest => (pyDigits rest).map Int.ofNat
  | '-' :: rest => (pyDigits rest).map (fun n => -(n : Int))
  | t => (pyDigits t).map Int.ofNat

/-! ## Index entries and the permissive index parser

`IdentifyAbstractions.exec` and `OrderChapters.exec` both accept an index
entry that is either a bare integer, a string (with an optional `#` comment),
or any other YAML scalar, which Python converts with `str(...)` before
calling `int`.  The `other` constructor carries that `str(...)` rendering. -/

inductive IdxEntry where
  | int (i : Int)
  | str (s : List Char)
  | other (repr : List Char)
deriving DecidableEq, Repr

/-- Model of the index parsing shared by `IdentifyAbstractions.exec`
(nodes.py lines 202-207) and `OrderChapters.exec` (lines 502-507):

    if isinstance(e, int): idx = e
    elif isinstance(e, str) and "#" in e: idx = int(e.split("#")[0].strip())
    else: idx = int(str(e).strip())

`e.split("#")[0]` is the run of characters before the first `#`. -/
def parse_file_index (e : IdxEntry) : Option Int :=
  match e with
  | .int i => some i
  | .str s => if '#' ∈ s then pyInt (s.takeWhile (fun c => c ≠ '#')) else pyInt s
  | .other r => pyInt r

/-! ## Claim C3: the pipeline factory in `flow.py`

`create_tutorial_flow` resolves class names in the module's global namespace
at call time.  The embedding records the names the module imports or defines
and the ordered global-name lookups the function body performs before it can
construct the `Flow`. -/

/-- Names bound in the global namespace of `flow.py`: the `pocketflow` import,
the six names imported from `nodes`, and the function defined in the module. -/
def flow_module_globals : List String :=
  ["Flow", "FetchRepo", "IdentifyAbstractions", "AnalyzeRelationships",
   "OrderChapters", "WriteChapters", "CombineTutorial", "create_tutorial_flow"]

/-- Ordered global-name lookups performed by the body of
`create_tutorial_flow` (flow.py lines 16-24), followed by the `Flow`
construction (line 37).  The `>>` connection statements between them only
read local variables, so they perform no global lookup. -/
def create_tutorial_flow_lookups : List String :=
  ["FetchRepo", "AnalyzeFastAPIEndpoints", "GenerateAPIDocumentation",
   "IdentifyAbstractions", "AnalyzeAPICalls", "AnalyzeRelationships",
   "OrderChapters", "WriteChapters", "CombineTutorial", "Flow"]

inductive FlowOutcome where
  | nameError (missing : String)
  | flowConstructed
deriving DecidableEq, Repr

/-- Run the body: each global lookup raises `NameError` if the name is not in
the module namespace; if all lookups succeed the `Flow` object is built. -/
def run_lookups (globals : List String) : List String → FlowOutcome
  | [] => .flowConstructed
  | n :: rest => if n ∈ globals then run_lookups globals rest else .nameError n

def create_tutorial_flow_result : FlowOutcome :=
  run_lookups flow_module_globals create_tutorial_flow_lookups

/-! ## Claim C4: cache eligibility of the generator call

Each stage computes the cache flag for `call_llm` as
`use_cache and self.cur_retry == 0` (nodes.py lines 176, 347, 489, 1179). -/

/-- Cache flag of `IdentifyAbstractions.exec` (nodes.py line 176). -/
def identifyAbstractions_cache_flag (use_cache : Bool) (cur_retry : Nat) : Bool :=
  use_cache && (cur_retry == 0)

/-- Cache flag of `AnalyzeRelationships.exec` (nodes.py line 347). -/
def analyzeRelationships_cache_flag (use_cache : Bool) (cur_retry : Nat) : Bool :=
  use_cache && (cur_retry == 0)

/-- Cache flag of `OrderChapters.exec` (nodes.py line 489). -/
def orderChapters_cache_flag (use_cache : Bool) (cur_retry : Nat) : Bool :=
  use_cache && (cur_retry == 0)

/-- Cache flag of each `WriteChapters.exec` batch item (nodes.py line 1179). -/
def writeChapters_cache_flag (use_cache : Bool) (cur_retry : Nat) : Bool :=
  use_cache && (cur_retry == 0)

/-- Claim C3: every call of `create_tutorial_flow` raises `NameError` on the
name `AnalyzeFastAPIEndpoints` before the `Flow` is constructed, because that
class (like `GenerateAPIDocumentation` and `AnalyzeAPICalls`) is neither
imported nor defined in `flow.py`; hence the factory can never return a flow. -/
theorem create_tutorial_flow_name_error :
    create_tutorial_flow_result = .nameError "AnalyzeFastAPIEndpoints" ∧
    create_tutorial_flow_result ≠ .flowConstructed ∧
    "AnalyzeFastAPIEndpoints" ∉ flow_module_globals ∧
    "GenerateAPIDocumentation" ∉ flow_module_globals ∧
    "AnalyzeAPICalls" ∉ flow_module_globals := by
  refine ⟨rfl, by decide, ?_, ?_, ?_⟩ <;> decide

/-- Claim C4: in each of the four stages that validate generator output, the
generator call is cache-eligible only on the first attempt (`cur_retry = 0`);
on every retry the call is made with caching disabled. -/
theorem cache_flag_first_attempt_only (use_cache : Bool) (cur_retry : Nat) :
    (cur_retry ≠ 0 →
      identifyAbstractions_cache_flag use_cache cur_retry = false ∧
      analyzeRelationships_cache_flag use_cache cur_retry = false ∧
      orderChapters_cache_flag use_cache cur_retry = false ∧
      writeChapters_cache_flag use_cache cur_retry = false) ∧
    (identifyAbstractions_cache_flag use_cache cur_retry = true → cur_retry = 0) ∧
    (analyzeRelationships_cache_flag use_cache cur_retry = true → cur_retry = 0) ∧
    (orderChapters_cache_flag use_cache cur_retry = true → cur_retry = 0) ∧
    (writeChapters_cache_flag use_cache cur_retry = true → cur_retry = 0) := by
  unfold identifyAbstractions_cache_flag analyzeRelationships_cache_flag
    orderChapters_cache_flag writeChapters_cache_flag
  constructor
  · intro h
    have : (cur_retry == 0) = false := by
      simpa [Nat.beq_eq_true_eq] using h
    simp [this]
  · refine ⟨?_, ?_, ?_, ?_⟩ <;>
      · intro h
        have := (Bool.and_eq_true _ _).mp h
        simpa [Nat.beq_eq_true_eq] using this.2

/-- Witness for claim C4 at a concrete retry attempt. -/
theorem cache_flag_first_attempt_only_witness :
    identifyAbstractions_cache_flag true 2 = false ∧
    analyzeRelationships_cache_flag true 2 = false ∧
    orderChapters_cache_flag true 2 = false ∧
    writeChapters_cache_flag true 2 = false :=
  (cache_flag_first_attempt_only true 2).1 (by decide)

/-! ## Validation errors

Each constructor corresponds to one `raise` site (or one kind of upstream
failure) in `nodes.py`, carrying the same data that the Python message
interpolates. -/

inductive PyErr where
  /-- `int(...)` raised `ValueError` inside a `try` block. -/
  | intValueError (entry : IdxEntry)
  /-- nodes.py line 210: `Invalid file index {idx} found in item {name}. Max
  index is {file_count - 1}.` -/
  | invalidFileIndex (idx : Int) (maxIdx : Int)
  /-- nodes.py line 215: `Could not parse index from entry: {entry} in item
  {name}` (raised by the `except (ValueError, TypeError)` clause). -/
  | couldNotParseEntry (entry : IdxEntry) (item_name : List Char)
  /-- nodes.py line 510: `Invalid index {idx} in ordered list. Max index is
  {num_abstractions - 1}.` -/
  | invalidOrderIndex (idx : Int) (maxIdx : Int)
  /-- nodes.py line 514: `Duplicate index {idx} found in ordered list.` -/
  | duplicateIndex (idx : Int)
  /-- nodes.py line 519: `Could not parse index from ordered list entry:
  {entry}` (raised by the `except (ValueError, TypeError)` clause). -/
  | couldNotParseOrderEntry (entry : IdxEntry)
  /-- nodes.py line 525: `Ordered list length ({got}) does not match number of
  abstractions ({expected}). Missing indices: {missing}`. -/
  | lengthMismatch (got : Nat) (expected : Nat) (missing : List Int)
  /-- nodes.py lines 183/496: `LLM Output is not a list`. -/
  | notAList
  /-- the unguarded fence split (`response.strip().split("```yaml")[1]`)
  raised `IndexError`, or `yaml.safe_load` raised. -/
  | fenceOrYamlFailure
deriving DecidableEq, Repr

/-! ## Claim C2/C9: `IdentifyAbstractions.exec` index validation
(nodes.py lines 199-229) -/

/-- Body of the `try` block for one `file_indices` entry (lines 201-213):
parse the entry, then range-check it, raising the max-index-citing
`ValueError` when out of range. -/
def identifyAbstractions_try_entry (file_count : Nat) (e : IdxEntry) :
    Except PyErr Int :=
  match parse_file_index e with
  | none => .error (.intValueError e)
  | some idx =>
    if 0 ≤ idx ∧ idx < (file_count : Int) then .ok idx
    else .error (.invalidFileIndex idx ((file_count : Int) - 1))

/-- One entry with the surrounding `except (ValueError, TypeError)` clause
(lines 214-217): every failure of the try body — including the
`invalidFileIndex` raise, which is itself a `ValueError` — is caught and
replaced by the generic could-not-parse error. -/
def identifyAbstractions_validate_entry (file_count : Nat)
    (item_name : List Char) (e : IdxEntry) : Except PyErr Int :=
  match identifyAbstractions_try_entry file_count e with
  | .ok idx => .ok idx
  | .error _ => .error (.couldNotParseEntry e item_name)

/-- The `for idx_entry in item["file_indices"]` loop (lines 200-217),
accumulating `validated_indices`; the first failing entry aborts the stage. -/
def identifyAbstractions_validate_indices (file_count : Nat)
    (item_name : List Char) : List IdxEntry → Except PyErr (List Int)
  | [] => .ok []
  | e :: rest =>
    match identifyAbstractions_validate_entry file_count item_name e with
    | .error err => .error err
    | .ok idx =>
      match identifyAbstractions_validate_indices file_count item_name rest with
      | .error err => .error err
      | .ok l => .ok (idx :: l)

/-- Model of Python `sorted(list(set(v)))` (line 219): the ascending list of
the distinct elements of `v`. -/
def pySortedSet (l : List Int) : List Int :=
  List.insertionSort (fun a b => a ≤ b) l.dedup

/-- One abstraction item of the parsed YAML list (after the key/type checks
of lines 187-196). -/
structure AbsItem where
  name : List Char
  description : List Char
  file_indices : List IdxEntry
deriving DecidableEq, Repr

/-- One stored abstraction (lines 221-229). -/
structure AbsOut where
  name : List Char
  description : List Char
  files : List Int
deriving DecidableEq, Repr

/-- The `for item in abstractions` loop of `IdentifyAbstractions.exec`
(lines 186-229): validate each item's indices and store
`name`/`description`/`files` with `files = sorted(list(set(validated)))`. -/
def identifyAbstractions_validate (file_count : Nat) :
    List AbsItem → Except PyErr (List AbsOut)
  | [] => .ok []
  | it :: rest =>
    match identifyAbstractions_validate_indices file_count it.name it.file_indices with
    | .error err => .error err
    | .ok validated =>
      match identifyAbstractions_validate file_count rest with
      | .error err => .error err
      | .ok outs =>
        .ok ({ name := it.name, description := it.description,
               files := pySortedSet validated } :: outs)

/-! ## Claim C1/C9: `OrderChapters.exec` validation (nodes.py lines 491-530) -/

/-- Body of the `try` block for one ordered-list entry (lines 501-516):
parse, range-check (raising the max-index-citing error), then duplicate-check
against the indices seen so far. -/
def orderChapters_try_entry (num_abstractions : Nat) (seen : List Int)
    (e : IdxEntry) : Except PyErr Int :=
  match parse_file_index e with
  | none => .error (.intValueError e)
  | some idx =>
    if 0 ≤ idx ∧ idx < (num_abstractions : Int) then
      if idx ∈ seen then .error (.duplicateIndex idx)
      else .ok idx
    else .error (.invalidOrderIndex idx ((num_abstractions : Int) - 1))

/-- One entry with the surrounding `except (ValueError, TypeError)` clause
(lines 518-521): every failure of the try body — including the range and
duplicate errors, which are themselves `ValueError`s — is caught and replaced
by the generic could-not-parse error. -/
def orderChapters_validate_entry (num_abstractions : Nat) (seen : List Int)
    (e : IdxEntry) : Except PyErr Int :=
  match orderChapters_try_entry num_abstractions seen e with
  | .ok idx => .ok idx
  | .error _ => .error (.couldNotParseOrderEntry e)

/-- The `for entry in ordered_indices_raw` loop (lines 498-521).  The Python
code keeps `ordered_indices` (a list) and `seen_indices` (a set) with the
same elements; the model keeps the single list and uses it for the
membership test. -/
def orderChapters_loop (num_abstractions : Nat) :
    List IdxEntry → List Int → Except PyErr (List Int)
  | [], ordered => .ok ordered
  | e :: rest, ordered =>
    match orderChapters_validate_entry num_abstractions ordered e with
    | .error err => .error err
    | .ok idx => orderChapters_loop num_abstractions rest (ordered ++ [idx])

/-- The missing-index set `set(range(num_abstractions)) - seen_indices`
interpolated into the length-mismatch message (line 526). -/
def orderChapters_missing (num_abstractions : Nat) (seen : List Int) : List Int :=
  ((List.range num_abstractions).map (fun m : Nat => (m : Int))).filter (fun j => j ∉ seen)

/-- Validation of a parsed chapter-order list (lines 495-530): the entry
loop followed by the final length check. -/
def orderChapters_validate (num_abstractions : Nat) (entries : List IdxEntry) :
    Except PyErr (List Int) :=
  match orderChapters_loop num_abstractions entries [] with
  | .error err => .error err
  | .ok ordered =>
    if ordered.length ≠ num_abstractions then
      .error (.lengthMismatch ordered.length num_abstractions
        (orderChapters_missing num_abstractions ordered))
    else .ok ordered

/-- Outcome of extracting and YAML-parsing a generator reply, upstream of the
entry loop (lines 492-496): the fence split or `yaml.safe_load` may raise, the
parsed document may fail the list check, or it yields a list of entries. -/
inductive OCReply where
  | extractionFailure
  | notAList
  | entries (l : List IdxEntry)
deriving DecidableEq, Repr

/-- The entries carried by a reply (empty for the failure outcomes). -/
def OCReply.entriesOf : OCReply → List IdxEntry
  | .entries l => l
  | _ => []

/-- `OrderChapters.exec` from the generator reply onwards (lines 489-530). -/
def orderChapters_exec (num_abstractions : Nat) : OCReply → Except PyErr (List Int)
  | .extractionFailure => .error .fenceOrYamlFailure
  | .notAList => .error .notAList
  | .entries l => orderChapters_validate num_abstractions l

/-! ## Inversion and loop lemmas for the two validators -/

theorem identifyAbstractions_try_entry_ok {file_count : Nat}
    {e : IdxEntry} {idx : Int}
    (h : identifyAbstractions_try_entry file_count e = .ok idx) :
    parse_file_index e = some idx ∧ 0 ≤ idx ∧ idx < (file_count : Int) := by
  unfold identifyAbstractions_try_entry at h
  split at h
  · exact Except.noConfusion h
  · rename_i j hp
    split at h
    · rename_i hr
      injection h with h2
      subst h2
      exact ⟨hp, hr.1, hr.2⟩
    · exact Except.noConfusion h

theorem identifyAbstractions_validate_entry_ok {file_count : Nat}
    {nm : List Char} {e : IdxEntry} {idx : Int}
    (h : identifyAbstractions_validate_entry file_count nm e = .ok idx) :
    parse_file_index e = some idx ∧ 0 ≤ idx ∧ idx < (file_count : Int) := by
  unfold identifyAbstractions_validate_entry at h
  split at h
  · rename_i j heq
    injection h with h2
    subst h2
    exact identifyAbstractions_try_entry_ok heq
  · exact Except.noConfusion h

theorem orderChapters_try_entry_ok {num_abstractions : Nat}
    {seen : List Int} {e : IdxEntry} {idx : Int}
    (h : orderChapters_try_entry num_abstractions seen e = .ok idx) :
    parse_file_index e = some idx ∧ 0 ≤ idx ∧ idx < (num_abstractions : Int) ∧
      idx ∉ seen := by
  unfold orderChapters_try_entry at h
  split at h
  · exact Except.noConfusion h
  · rename_i j hp
    split at h
    · split at h
      · exact Except.noConfusion h
      · rename_i hr hs
        injection h with h2
        subst h2
        exact ⟨hp, hr.1, hr.2, hs⟩
    · exact Except.noConfusion h

theorem orderChapters_validate_entry_ok {num_abstractions : Nat}
    {seen : List Int} {e : IdxEntry} {idx : Int}
    (h : orderChapters_validate_entry num_abstractions seen e = .ok idx) :
    parse_file_index e = some idx ∧ 0 ≤ idx ∧ idx < (num_abstractions : Int) ∧
      idx ∉ seen := by
  unfold orderChapters_validate_entry at h
  split at h
  · rename_i j heq
    injection h with h2
    subst h2
    exact orderChapters_try_entry_ok heq
  · exact Except.noConfusion h

theorem orderChapters_loop_ok (num_abstractions : Nat) :
    ∀ (es : List IdxEntry) (acc l : List Int),
      orderChapters_loop num_abstractions es acc = .ok l →
      (∀ j : Int, j ∈ l ↔ j ∈ acc ∨ ∃ e ∈ es, parse_file_index e = some j) ∧
      (acc.Nodup → l.Nodup) ∧
      (∀ j ∈ l, j ∈ acc ∨ (0 ≤ j ∧ j < (num_abstractions : Int))) ∧
      l.length = acc.length + es.length
  | [], acc, l, h => by
    simp only [orderChapters_loop, Except.ok.injEq] at h
    subst h
    exact ⟨by simp, id, fun j hj => .inl hj, by simp⟩
  | e :: rest, acc, l, h => by
    simp only [orderChapters_loop] at h
    cases hv : orderChapters_validate_entry num_abstractions acc e with
    | error err => rw [hv] at h; simp at h
    | ok idx =>
      rw [hv] at h
      obtain ⟨hp, h0, hlt, hni⟩ := orderChapters_validate_entry_ok hv
      obtain ⟨hmem, hnd, hrange, hlen⟩ :=
        orderChapters_loop_ok num_abstractions rest (acc ++ [idx]) l h
      refine ⟨?_, ?_, ?_, ?_⟩
      · intro j
        rw [hmem j]
        simp only [List.mem_append, List.mem_cons, List.not_mem_nil, or_false]
        constructor
        · rintro (⟨hj | rfl⟩ | ⟨e', he', hpe⟩)
          · exact .inl hj
          · exact .inr ⟨e, .inl rfl, hp⟩
          · exact .inr ⟨e', .inr he', hpe⟩
        · rintro (hj | ⟨e', he', hpe⟩)
          · exact .inl (.inl hj)
          · rcases he' with rfl | he'
            · rw [hp] at hpe
              exact .inl (.inr (Option.some_inj.mp hpe).symm)
            · exact .inr ⟨e', he', hpe⟩
      · intro hacc
        refine hnd ?_
        simp [List.nodup_append, hacc, hni]
      · intro j hj
        rcases hrange j hj with hj' | hj'
        · rcases List.mem_append.mp hj' with hj'' | hj''
          · exact .inl hj''
          · rcases List.mem_singleton.mp hj'' with rfl
            exact .inr ⟨h0, hlt⟩
        · exact .inr hj'
      · simp only [List.length_append, List.length_cons, List.length_nil] at hlen ⊢
        omega

theorem identifyAbstractions_validate_indices_ok (file_count : Nat)
    (nm : List Char) :
    ∀ (es : List IdxEntry) (l : List Int),
      identifyAbstractions_validate_indices file_count nm es = .ok l →
      (∀ i : Int, i ∈ l ↔ ∃ e ∈ es, parse_file_index e = some i) ∧
      (∀ i ∈ l, 0 ≤ i ∧ i < (file_count : Int)) ∧
      (∀ e ∈ es, ∃ i : Int,
        parse_file_index e = some i ∧ 0 ≤ i ∧ i < (file_count : Int))
  | [], l, h => by
    simp only [identifyAbstractions_validate_indices, Except.ok.injEq] at h
    subst h
    exact ⟨by simp, by simp, by simp⟩
  | e :: rest, l, h => by
    simp only [identifyAbstractions_validate_indices] at h
    cases hv : identifyAbstractions_validate_entry file_count nm e with
    | error err => rw [hv] at h; simp at h
    | ok idx =>
      rw [hv] at h
      cases hr : identifyAbstractions_validate_indices file_count nm rest with
      | error err => rw [hr] at h; simp at h
      | ok tl =>
        rw [hr] at h
        simp only [Except.ok.injEq] at h
        subst h
        obtain ⟨hp, h0, hlt⟩ := identifyAbstractions_validate_entry_ok hv
        obtain ⟨hmem, hrange, hall⟩ :=
          identifyAbstractions_validate_indices_ok file_count nm rest tl hr
        refine ⟨?_, ?_, ?_⟩
        · intro i
          simp only [List.mem_cons]
          constructor
          · rintro (rfl | hi')
            · exact ⟨e, .inl rfl, hp⟩
            · obtain ⟨e', he', hpe⟩ := (hmem i).mp hi'
              exact ⟨e', .inr he', hpe⟩
          · rintro ⟨e', rfl | he', hpe⟩
            · rw [hp] at hpe
              exact .inl (Option.some_inj.mp hpe).symm
            · exact .inr ((hmem i).mpr ⟨e', he', hpe⟩)
        · intro i hi
          rcases List.mem_cons.mp hi with rfl | hi'
          · exact ⟨h0, hlt⟩
          · exact hrange i hi'
        · intro e' he'
          rcases List.mem_cons.mp he' with rfl | he'
          · exact ⟨idx, hp, h0, hlt⟩
          · exact hall e' he'

theorem pySortedSet_mem (l : List Int) (i : Int) :
    i ∈ pySortedSet l ↔ i ∈ l := by
  unfold pySortedSet
  rw [(List.perm_insertionSort _ _).mem_iff, List.mem_dedup]

theorem pySortedSet_sorted (l : List Int) :
    List.Sorted (· < ·) (pySortedSet l) := by
  have hs : List.Sorted (· ≤ ·) (pySortedSet l) :=
    List.sorted_insertionSort _ _
  have hn : (pySortedSet l).Nodup :=
    (List.perm_insertionSort _ _).nodup_iff.mpr (List.nodup_dedup l)
  exact hs.lt_of_le hn

theorem orderChapters_validate_entry_error {num_abstractions : Nat}
    {seen : List Int} {e : IdxEntry} {err : PyErr}
    (h : orderChapters_validate_entry num_abstractions seen e = .error err) :
    err = .couldNotParseOrderEntry e := by
  unfold orderChapters_validate_entry at h
  split at h
  · exact Except.noConfusion h
  · injection h with h2
    exact h2.symm

theorem orderChapters_loop_error (num_abstractions : Nat) :
    ∀ (es : List IdxEntry) (acc : List Int) (err : PyErr),
      orderChapters_loop num_abstractions es acc = .error err →
      ∃ e, err = .couldNotParseOrderEntry e
  | [], acc, err, h => by simp [orderChapters_loop] at h
  | e :: rest, acc, err, h => by
    simp only [orderChapters_loop] at h
    split at h
    · rename_i err' heq
      injection h with h2
      subst h2
      exact ⟨e, orderChapters_validate_entry_error heq⟩
    · rename_i idx heq
      exact orderChapters_loop_error num_abstractions rest (acc ++ [idx]) err h

theorem int_range_mem (num : Nat) (j : Int) :
    j ∈ (List.range num).map (fun m : Nat => (m : Int)) ↔ 0 ≤ j ∧ j < (num : Int) := by
  simp only [List.mem_map, List.mem_range]
  constructor
  · rintro ⟨m, hm, rfl⟩
    refine ⟨Int.natCast_nonneg m, ?_⟩
    omega
  · rintro ⟨h0, hlt⟩
    refine ⟨j.toNat, by omega, ?_⟩
    exact_mod_cast Int.toNat_of_nonneg h0

theorem int_range_nodup (num : Nat) :
    ((List.range num).map (fun m : Nat => (m : Int))).Nodup :=
  (List.nodup_range num).map (fun {a b} hab => by omega)

theorem identifyAbstractions_validate_ok_entries (file_count : Nat) :
    ∀ (items : List AbsItem) (outs : List AbsOut),
      identifyAbstractions_validate file_count items = .ok outs →
      ∀ it ∈ items, ∀ e ∈ it.file_indices,
        ∃ i : Int, parse_file_index e = some i ∧ 0 ≤ i ∧ i < (file_count : Int)
  | [], _, _ => by simp
  | it :: rest, outs, h => by
    simp only [identifyAbstractions_validate] at h
    cases hv : identifyAbstractions_validate_indices file_count it.name it.file_indices with
    | error err => rw [hv] at h; simp at h
    | ok validated =>
      rw [hv] at h
      cases hr : identifyAbstractions_validate file_count rest with
      | error err => rw [hr] at h; simp at h
      | ok outs' =>
        intro it' hit' e he'
        rcases List.mem_cons.mp hit' with rfl | hit'
        · exact (identifyAbstractions_validate_indices_ok file_count it'.name
            it'.file_indices validated hv).2.2 e he'
        · exact identifyAbstractions_validate_ok_entries file_count rest outs' hr
            it' hit' e he'

/-- Claim C1: for every abstraction count and every generator reply,
`OrderChapters.exec` either raises a validation error or returns a list of
integers that is a permutation of `[0, num_abstractions)`: length equals the
abstraction count, no duplicates, and membership is exactly the in-range
indices; and when the length-mismatch error is raised, the missing-index set
it names is exactly the set of in-range indices parsed from no entry of the
reply (and is nonempty). -/
theorem orderChapters_exec_permutation (num_abstractions : Nat) (reply : OCReply) :
    (∀ l, orderChapters_exec num_abstractions reply = .ok l →
      l.length = num_abstractions ∧ l.Nodup ∧
      (∀ j : Int, j ∈ l ↔ 0 ≤ j ∧ j < (num_abstractions : Int))) ∧
    (∀ got expected missing, orderChapters_exec num_abstractions reply
        = .error (.lengthMismatch got expected missing) →
      expected = num_abstractions ∧ got < num_abstractions ∧ missing ≠ [] ∧
      (∀ j : Int, j ∈ missing ↔ (0 ≤ j ∧ j < (num_abstractions : Int) ∧
        ∀ e ∈ reply.entriesOf, parse_file_index e ≠ some j))) := by
  cases reply with
  | extractionFailure =>
    constructor
    · intro l h
      exact Except.noConfusion h
    · intro got expected missing h
      injection h with h2
      exact PyErr.noConfusion h2
  | notAList =>
    constructor
    · intro l h
      exact Except.noConfusion h
    · intro got expected missing h
      injection h with h2
      exact PyErr.noConfusion h2
  | entries es =>
    constructor
    · intro l h
      simp only [orderChapters_exec, orderChapters_validate] at h
      split at h
      · exact Except.noConfusion h
      · rename_i ordered hloop
        split at h
        · exact Except.noConfusion h
        · rename_i hcond
          injection h with h2
          subst h2
          obtain ⟨hmem, hnd, hrange, hlenl⟩ :=
            orderChapters_loop_ok num_abstractions es [] ordered hloop
          have hnodup : ordered.Nodup := hnd List.nodup_nil
          have hlen : ordered.length = num_abstractions := not_not.mp hcond
          have hsub : ∀ j ∈ ordered,
              j ∈ (List.range num_abstractions).map (fun m : Nat => (m : Int)) := by
            intro j hj
            rcases hrange j hj with hj' | hj'
            · exact absurd hj' (List.not_mem_nil j)
            · exact (int_range_mem num_abstractions j).mpr hj'
          have hperm : List.Perm ordered
              ((List.range num_abstractions).map (fun m : Nat => (m : Int))) :=
            (List.subperm_of_subset hnodup hsub).perm_of_length_le (by simp [hlen])
          refine ⟨hlen, hnodup, ?_⟩
          intro j
          rw [hperm.mem_iff, int_range_mem]
    · intro got expected missing h
      simp only [orderChapters_exec, orderChapters_validate] at h
      split at h
      · rename_i err heq
        injection h with h2
        subst h2
        obtain ⟨e, he⟩ := orderChapters_loop_error num_abstractions es [] _ heq
        exact PyErr.noConfusion he
      · rename_i ordered hloop
        split at h
        · rename_i hne
          injection h with h2
          obtain ⟨hg, hexp, hmiss⟩ := PyErr.lengthMismatch.inj h2
          subst hg
          subst hexp
          subst hmiss
          obtain ⟨hmem, hnd, hrange, hlenl⟩ :=
            orderChapters_loop_ok num_abstractions es [] ordered hloop
          have hnodup : ordered.Nodup := hnd List.nodup_nil
          have hsub : ∀ j ∈ ordered,
              j ∈ (List.range num_abstractions).map (fun m : Nat => (m : Int)) := by
            intro j hj
            rcases hrange j hj with hj' | hj'
            · exact absurd hj' (List.not_mem_nil j)
            · exact (int_range_mem num_abstractions j).mpr hj'
          have hle : ordered.length ≤ num_abstractions := by
            have := (List.subperm_of_subset hnodup hsub).length_le
            simpa using this
          have hlt : ordered.length < num_abstractions :=
            lt_of_le_of_ne hle hne
          have hmisschar : ∀ j : Int,
              j ∈ orderChapters_missing num_abstractions ordered ↔
                (0 ≤ j ∧ j < (num_abstractions : Int) ∧
                  ∀ e ∈ es, parse_file_index e ≠ some j) := by
            intro j
            unfold orderChapters_missing
            rw [List.mem_filter]
            simp only [decide_eq_true_eq, int_range_mem]
            constructor
            · rintro ⟨⟨h0, hjlt⟩, hnotin⟩
              refine ⟨h0, hjlt, ?_⟩
              intro e he hpe
              exact hnotin ((hmem j).mpr (.inr ⟨e, he, hpe⟩))
            · rintro ⟨h0, hjlt, hnone⟩
              refine ⟨⟨h0, hjlt⟩, ?_⟩
              intro hin
              rcases (hmem j).mp hin with hin' | ⟨e, he, hpe⟩
              · exact List.not_mem_nil j hin'
              · exact hnone e he hpe
          refine ⟨rfl, hlt, ?_, hmisschar⟩
          have hex : ∃ j : Int, 0 ≤ j ∧ j < (num_abstractions : Int) ∧
              ∀ e ∈ es, parse_file_index e ≠ some j := by
            by_contra hno
            push_neg at hno
            have hsup : ∀ j ∈ (List.range num_abstractions).map (fun m : Nat => (m : Int)),
                j ∈ ordered := by
              intro j hj
              obtain ⟨h0, hjlt⟩ := (int_range_mem num_abstractions j).mp hj
              obtain ⟨e, he, hpe⟩ := hno j h0 hjlt
              exact (hmem j).mpr (.inr ⟨e, he, hpe⟩)
            have := (List.subperm_of_subset (int_range_nodup num_abstractions) hsup).length_le
            simp only [List.length_map, List.length_range] at this
            omega
          obtain ⟨j, hj⟩ := hex
          exact List.ne_nil_of_mem ((hmisschar j).mpr hj)
        · exact Except.noConfusion h

/-- Witness for claim C1: a concrete two-abstraction reply whose entries are a
bare integer and a commented-integer string validates to the permutation
`[1, 0]`. -/
theorem orderChapters_exec_permutation_witness :
    [(1 : Int), 0].length = 2 ∧ [(1 : Int), 0].Nodup ∧
    (∀ j : Int, j ∈ [(1 : Int), 0] ↔ 0 ≤ j ∧ j < ((2 : Nat) : Int)) :=
  (orderChapters_exec_permutation 2
    (.entries [.int 1, .str ("0 # Foo".data)])).1 [1, 0] rfl

/-- Claim C2: whenever `IdentifyAbstractions.exec` accepts a reply, each
returned abstraction stores a `files` list that is strictly sorted (hence
duplicate-free), contains exactly the indices parsed from the item's entries
(bare integers or leading-integer strings), and all of them in range; and a
reply containing any entry that does not parse to an in-range integer is a
hard error. -/
theorem identifyAbstractions_exec_files (file_count : Nat) (items : List AbsItem) :
    (∀ outs, identifyAbstractions_validate file_count items = .ok outs →
      List.Forall₂ (fun (it : AbsItem) (out : AbsOut) =>
        out.name = it.name ∧ out.description = it.description ∧
        List.Sorted (· < ·) out.files ∧
        (∀ i : Int, i ∈ out.files ↔ ∃ e ∈ it.file_indices, parse_file_index e = some i) ∧
        (∀ i ∈ out.files, 0 ≤ i ∧ i < (file_count : Int))) items outs) ∧
    ((∃ it ∈ items, ∃ e ∈ it.file_indices,
        ¬ ∃ i : Int, parse_file_index e = some i ∧ 0 ≤ i ∧ i < (file_count : Int)) →
      ∃ err, identifyAbstractions_validate file_count items = .error err) := by
  constructor
  · intro outs h
    induction items generalizing outs with
    | nil =>
      simp only [identifyAbstractions_validate, Except.ok.injEq] at h
      subst h
      exact List.Forall₂.nil
    | cons it rest ih =>
      simp only [identifyAbstractions_validate] at h
      split at h
      · exact Except.noConfusion h
      · rename_i validated hv
        split at h
        · exact Except.noConfusion h
        · rename_i outs' hr
          injection h with h2
          subst h2
          obtain ⟨hmem, hrange, _⟩ :=
            identifyAbstractions_validate_indices_ok file_count it.name
              it.file_indices validated hv
          refine List.Forall₂.cons
            ⟨rfl, rfl, pySortedSet_sorted validated, ?_, ?_⟩ (ih outs' hr)
          · intro i
            rw [pySortedSet_mem]
            exact hmem i
          · intro i hi
            exact hrange i ((pySortedSet_mem validated i).mp hi)
  · rintro ⟨it, hit, e, he, hbad⟩
    cases hv : identifyAbstractions_validate file_count items with
    | error err => exact ⟨err, rfl⟩
    | ok outs =>
      exact absurd
        (identifyAbstractions_validate_ok_entries file_count items outs hv it hit e he)
        hbad

/-- Witness for claim C2: with 3 files, one abstraction whose entries are
`0`, `"1 # path"`, and `1` is accepted and stores the sorted deduplicated
list `[0, 1]`. -/
theorem identifyAbstractions_exec_files_witness :
    List.Forall₂ (fun (it : AbsItem) (out : AbsOut) =>
      out.name = it.name ∧ out.description = it.description ∧
      List.Sorted (· < ·) out.files ∧
      (∀ i : Int, i ∈ out.files ↔ ∃ e ∈ it.file_indices, parse_file_index e = some i) ∧
      (∀ i ∈ out.files, 0 ≤ i ∧ i < ((3 : Nat) : Int)))
      [⟨"A".data, "d".data, [.int 0, .str ("1 # path".data), .int 1]⟩]
      [⟨"A".data, "d".data, [0, 1]⟩] :=
  (identifyAbstractions_exec_files 3
    [⟨"A".data, "d".data, [.int 0, .str ("1 # path".data), .int 1]⟩]).1
    [⟨"A".data, "d".data, [0, 1]⟩] rfl

/-- Claim C9 (code bug): the `try` bodies do raise the informative errors the
spec describes — the out-of-range error citing the maximum valid index and
the duplicate-index error — but the enclosing `except (ValueError, TypeError)`
clauses catch those very `ValueError`s and re-raise the generic
could-not-parse error, so the surfaced validation error never cites the
maximum index nor reports the duplicate. -/
theorem validation_error_shadowing :
    identifyAbstractions_try_entry 3 (.int 5) = .error (.invalidFileIndex 5 2) ∧
    identifyAbstractions_validate_entry 3 ("X".data) (.int 5)
      = .error (.couldNotParseEntry (.int 5) ("X".data)) ∧
    orderChapters_try_entry 3 [0, 1] (.int 1) = .error (.duplicateIndex 1) ∧
    orderChapters_validate 3 [.int 0, .int 1, .int 1]
      = .error (.couldNotParseOrderEntry (.int 1)) := by
  exact ⟨rfl, rfl, rfl, rfl⟩

/-! ## Claim C6: chapter filenames
(`WriteChapters.prep`, nodes.py lines 960-964, and `CombineTutorial.prep`,
lines 1269-1273) -/

/-- `safe_name = "".join(c if c.isalnum() else "_" for c in chapter_name).lower()`
as computed in `WriteChapters.prep` (lines 961-963): replace each
non-alphanumeric character by an underscore, then lower-case the joined
string. -/
def writeChapters_safe_name (chapter_name : List Char) : List Char :=
  (chapter_name.map (fun c => if c.isAlphanum then c else '_')).map Char.toLower

/-- Python `f"{n:02d}"` for a natural number: zero-pad the decimal rendering
to a minimum width of two digits. -/
def format02d (n : Nat) : List Char :=
  if n < 10 then '0' :: (toString n).data else (toString n).data

/-- `filename = f"{i+1:02d}_{safe_name}.md"` (line 964), where `i` is the
0-based position in the chapter order. -/
def writeChapters_filename (i : Nat) (chapter_name : List Char) : List Char :=
  format02d (i + 1) ++ ("_").data ++ writeChapters_safe_name chapter_name
    ++ (".md").data

/-- The same `safe_name` computation repeated in `CombineTutorial.prep`
(lines 1270-1272). -/
def combineTutorial_safe_name (abstraction_name : List Char) : List Char :=
  (abstraction_name.map (fun c => if c.isAlphanum then c else '_')).map Char.toLower

/-- `filename = f"{i+1:02d}_{safe_name}.md"` as repeated in
`CombineTutorial.prep` (line 1273). -/
def combineTutorial_filename (i : Nat) (abstraction_name : List Char) : List Char :=
  format02d (i + 1) ++ ("_").data ++ combineTutorial_safe_name abstraction_name
    ++ (".md").data

/-- Sanitization in the words of the spec, for comparison with the code's
`safe_name`: the name lower-cased, with every non-alphanumeric character of
the result replaced by an underscore. -/
def spec_sanitize (name : List Char) : List Char :=
  (name.map Char.toLower).map (fun c => if c.isAlphanum then c else '_')

theorem toDigitsCore_length_ge (fuel n : Nat) (ds : List Char) :
    ds.length + 1 ≤ (Nat.toDigitsCore 10 (fuel + 1) n ds).length := by
  induction fuel generalizing n ds with
  | zero =>
    unfold Nat.toDigitsCore
    dsimp only
    split
    · simp
    · unfold Nat.toDigitsCore
      simp
  | succ fuel ih =>
    unfold Nat.toDigitsCore
    dsimp only
    split
    · simp
    · calc ds.length + 1 ≤ ((n % 10).digitChar :: ds).length + 1 := by simp
        _ ≤ _ := ih (n / 10) ((n % 10).digitChar :: ds)

theorem toString_nat_length_pos (n : Nat) :
    1 ≤ (toString n).data.length := by
  have hstr : (toString n).data = Nat.toDigits 10 n := rfl
  rw [hstr]
  unfold Nat.toDigits
  obtain ⟨m, hm⟩ : ∃ m, n + 1 = m + 1 := ⟨n, rfl⟩
  rw [hm]
  simpa using toDigitsCore_length_ge m n []

theorem toString_nat_length_ge_two {n : Nat} (h : 10 ≤ n) :
    2 ≤ (toString n).data.length := by
  have hstr : (toString n).data = Nat.toDigits 10 n := rfl
  rw [hstr]
  unfold Nat.toDigits
  have hne : ¬ n / 10 = 0 := by omega
  obtain ⟨m, hm⟩ : ∃ m, n = m + 1 := ⟨n - 1, by omega⟩
  subst hm
  unfold Nat.toDigitsCore
  dsimp only
  rw [if_neg hne]
  have := toDigitsCore_length_ge m ((m + 1) / 10) [((m + 1) % 10).digitChar]
  simpa using this

theorem uint32_le_iff_toNat (u v : UInt32) : u ≤ v ↔ u.toNat ≤ v.toNat :=
  Iff.rfl

theorem char_toNat_ofNat {n : Nat} (h : n < 55296) : (Char.ofNat n).toNat = n := by
  have hv : n.isValidChar := Or.inl h
  rw [Char.ofNat, dif_pos hv]
  simp [Char.ofNatAux, Char.toNat, UInt32.toNat]

theorem char_isAlphanum_iff (d : Char) : d.isAlphanum = true ↔
    (65 ≤ d.toNat ∧ d.toNat ≤ 90 ∨ 97 ≤ d.toNat ∧ d.toNat ≤ 122 ∨
      48 ≤ d.toNat ∧ d.toNat ≤ 57) := by
  have hd : d.toNat = d.val.toNat := rfl
  have e65 : (65 : UInt32).toNat = 65 := rfl
  have e90 : (90 : UInt32).toNat = 90 := rfl
  have e97 : (97 : UInt32).toNat = 97 := rfl
  have e122 : (122 : UInt32).toNat = 122 := rfl
  have e48 : (48 : UInt32).toNat = 48 := rfl
  have e57 : (57 : UInt32).toNat = 57 := rfl
  unfold Char.isAlphanum Char.isAlpha Char.isUpper Char.isLower Char.isDigit
  simp only [Bool.or_eq_true, Bool.and_eq_true, decide_eq_true_eq, ge_iff_le,
    uint32_le_iff_toNat, e65, e90, e97, e122, e48, e57, hd]
  tauto

theorem isAlphanum_toLower (c : Char) :
    (Char.toLower c).isAlphanum = c.isAlphanum := by
  unfold Char.toLower
  by_cases h : c.toNat ≥ 65 ∧ c.toNat ≤ 90
  · rw [if_pos h]
    have hval : (Char.ofNat (c.toNat + 32)).toNat = c.toNat + 32 :=
      char_toNat_ofNat (by omega)
    rw [Bool.eq_iff_iff, char_isAlphanum_iff, char_isAlphanum_iff, hval]
    omega
  · rw [if_neg h]

theorem sanitize_char_comm (c : Char) :
    Char.toLower (if c.isAlphanum then c else '_') =
      (if (Char.toLower c).isAlphanum then Char.toLower c else '_') := by
  rw [isAlphanum_toLower]
  by_cases h : c.isAlphanum
  · rw [if_pos h, if_pos h]
  · rw [if_neg h, if_neg h]
    decide

theorem safe_name_eq_spec_sanitize (name : List Char) :
    writeChapters_safe_name name = spec_sanitize name := by
  unfold writeChapters_safe_name spec_sanitize
  rw [List.map_map, List.map_map]
  exact List.map_congr_left (fun c _ => sanitize_char_comm c)

/-- Claim C6: for every 0-based chapter position `i` over an abstraction
name, the table-of-contents link filename computed in `WriteChapters.prep`
and the file written by `CombineTutorial` coincide, and both equal the
position `i + 1` zero-padded to the two-digit width used by the position
counter, then an underscore, then the name lower-cased with every
non-alphanumeric character replaced by an underscore, then `.md`. -/
theorem chapter_filename_consistent (i : Nat) (name : List Char) :
    writeChapters_filename i name = combineTutorial_filename i name ∧
    writeChapters_filename i name =
      format02d (i + 1) ++ ("_").data ++ spec_sanitize name ++ (".md").data ∧
    2 ≤ (format02d (i + 1)).length := by
  refine ⟨rfl, ?_, ?_⟩
  · unfold writeChapters_filename
    rw [safe_name_eq_spec_sanitize]
  · unfold format02d
    split
    · have := toString_nat_length_pos (i + 1)
      simp only [List.length_cons]
      omega
    · rename_i h
      exact toString_nat_length_ge_two (by omega)

/-! ## Claim C7: Mermaid edge labels
(`CombineTutorial.prep`, nodes.py lines 1235-1246) -/

/-- The fixed maximum label length (line 1241). -/
def max_label_len : Nat := 30

/-- `edge_label = rel["label"].replace('"', "").replace("\n", " ")`
(lines 1238-1240).  Removing every occurrence of the one-character pattern
`"` is filtering that character out, and replacing each `\n` by a space is a
character map. -/
def combineTutorial_stripped_label (label : List Char) : List Char :=
  (label.filter (fun c => c ≠ '"')).map (fun c => if c = '\n' then ' ' else c)

/-- The truncation step (lines 1242-1243):
`if len(edge_label) > max_label_len: edge_label = edge_label[: max_label_len - 3] + "..."`. -/
def combineTutorial_edge_label (label : List Char) : List Char :=
  let edge_label := combineTutorial_stripped_label label
  if max_label_len < edge_label.length then
    edge_label.take (max_label_len - 3) ++ ("...").data
  else edge_label

theorem combineTutorial_stripped_label_mem {label : List Char} {c : Char}
    (hc : c ∈ combineTutorial_stripped_label label) : c ≠ '"' ∧ c ≠ '\n' := by
  unfold combineTutorial_stripped_label at hc
  obtain ⟨c', hc', rfl⟩ := List.mem_map.mp hc
  obtain ⟨hmem, hne⟩ := List.mem_filter.mp hc'
  by_cases h : c' = '\n'
  · rw [if_pos h]
    constructor <;> decide
  · rw [if_neg h]
    exact ⟨by simpa using hne, h⟩

/-- Claim C7: the Mermaid edge label emitted by `CombineTutorial` contains no
quote and no newline character, never exceeds the 30-character maximum, and
whenever the stripped label is longer than 30 characters the emitted label is
the 27-character truncation followed by a trailing ellipsis. -/
theorem combineTutorial_edge_label_spec (label : List Char) :
    '"' ∉ combineTutorial_edge_label label ∧
    '\n' ∉ combineTutorial_edge_label label ∧
    (combineTutorial_edge_label label).length ≤ max_label_len ∧
    (max_label_len < (combineTutorial_stripped_label label).length →
      combineTutorial_edge_label label =
        (combineTutorial_stripped_label label).take (max_label_len - 3)
          ++ ("...").data) := by
  have hmem : ∀ c ∈ combineTutorial_edge_label label, c ≠ '"' ∧ c ≠ '\n' := by
    intro c hc
    unfold combineTutorial_edge_label at hc
    dsimp only at hc
    split at hc
    · rcases List.mem_append.mp hc with hc' | hc'
      · exact combineTutorial_stripped_label_mem (List.mem_of_mem_take hc')
      · fin_cases hc' <;> exact ⟨by decide, by decide⟩
    · exact combineTutorial_stripped_label_mem hc
  refine ⟨fun h => (hmem _ h).1 rfl, fun h => (hmem _ h).2 rfl, ?_, ?_⟩
  · unfold combineTutorial_edge_label
    dsimp only
    split
    · rename_i h
      simp only [List.length_append, List.length_take]
      have hdots : (("...").data).length = 3 := rfl
      rw [hdots]
      unfold max_label_len at h ⊢
      omega
    · rename_i h
      unfold max_label_len at h ⊢
      omega
  · intro h
    unfold combineTutorial_edge_label
    dsimp only
    rw [if_pos h]

/-- Witness for claim C7 at a concrete 39-character label: the emitted label
is the truncated 27 characters plus the ellipsis. -/
theorem combineTutorial_edge_label_spec_witness :
    combineTutorial_edge_label ("this is a very long relationship label!".data) =
      (combineTutorial_stripped_label
        ("this is a very long relationship label!".data)).take (max_label_len - 3)
        ++ ("...").data :=
  (combineTutorial_edge_label_spec
    ("this is a very long relationship label!".data)).2.2.2 (by decide)

/-! ## Claim C8: heading normalization in `WriteChapters.exec`
(nodes.py lines 1180-1191) -/

/-- Model of Python `s.split("\n")`. -/
def pySplitNewline : List Char → List (List Char)
  | [] => [[]]
  | c :: rest =>
    if c = '\n' then [] :: pySplitNewline rest
    else
      match pySplitNewline rest with
      | [] => [[c]]
      | h :: t => (c :: h) :: t

/-- The guard prefix `f"# Chapter {chapter_num}"` of line 1182. -/
def chapter_num_heading (chapter_num : Nat) : List Char :=
  ("# Chapter ").data ++ (toString chapter_num).data

/-- `actual_heading = f"# Chapter {chapter_num}: {abstraction_name}"`
(line 1181). -/
def actual_heading (chapter_num : Nat) (abstraction_name : List Char) : List Char :=
  ("# Chapter ").data ++ (toString chapter_num).data ++ (": ").data
    ++ abstraction_name

/-- Heading normalization (lines 1180-1191).  The Python `if not ...`
becomes the else branch here: when the stripped content already starts with
`# Chapter {chapter_num}` the content is returned unchanged; otherwise the
first line of the stripped content is replaced by the exact heading if it
looks like a heading, else the exact heading is prepended to the original
content.  Python's `if lines and ...` treats an empty line list as falsy,
which is the `[]` match arm. -/
def writeChapters_normalize (chapter_num : Nat)
    (abstraction_name chapter_content : List Char) : List Char :=
  if pyStartsWith (pyStrip chapter_content) (chapter_num_heading chapter_num) then
    chapter_content
  else
    match pySplitNewline (pyStrip chapter_content) with
    | [] => actual_heading chapter_num abstraction_name ++ ("\n\n").data
        ++ chapter_content
    | l0 :: rest =>
      if pyStartsWith (pyStrip l0) (("#").data) then
        List.intercalate ("\n").data
          (actual_heading chapter_num abstraction_name :: rest)
      else
        actual_heading chapter_num abstraction_name ++ ("\n\n").data
          ++ chapter_content

theorem pyStartsWith_iff : ∀ (l p : List Char),
    pyStartsWith l p = true ↔ ∃ t, l = p ++ t
  | _, [] => by simp [pyStartsWith]
  | [], p :: ps => by simp [pyStartsWith]
  | c :: cs, p :: ps => by
    simp only [pyStartsWith, Bool.and_eq_true, decide_eq_true_eq]
    rw [pyStartsWith_iff cs ps]
    constructor
    · rintro ⟨rfl, t, rfl⟩
      exact ⟨t, rfl⟩
    · rintro ⟨t, h⟩
      injection h with h1 h2
      exact ⟨h1, t, h2⟩

theorem dropWhile_ws_cons {c : Char} (hc : c.isWhitespace = false)
    (l : List Char) :
    (c :: l).dropWhile Char.isWhitespace = c :: l := by
  simp [List.dropWhile_cons, hc]

theorem pyStrip_shape {c0 cL : Char} (hc0 : c0.isWhitespace = false)
    (hcL : cL.isWhitespace = false) (q t : List Char) :
    ∃ t', pyStrip ((c0 :: (q ++ [cL])) ++ t) = (c0 :: (q ++ [cL])) ++ t' := by
  unfold pyStrip
  have h1 : ((c0 :: (q ++ [cL])) ++ t).dropWhile Char.isWhitespace
      = (c0 :: (q ++ [cL])) ++ t := by
    rw [List.cons_append]
    exact dropWhile_ws_cons hc0 _
  rw [h1]
  have h2 : ((c0 :: (q ++ [cL])) ++ t).reverse
      = t.reverse ++ (cL :: (q.reverse ++ [c0])) := by
    simp only [List.cons_append, List.reverse_append, List.reverse_cons,
      List.append_assoc, List.singleton_append, List.nil_append]
  rw [h2, List.dropWhile_append]
  split
  · rw [dropWhile_ws_cons hcL]
    refine ⟨[], ?_⟩
    simp only [List.reverse_cons, List.reverse_append, List.reverse_reverse,
      List.reverse_nil, List.append_assoc, List.singleton_append,
      List.nil_append, List.append_nil, List.cons_append]
  · refine ⟨(t.reverse.dropWhile Char.isWhitespace).reverse, ?_⟩
    simp only [List.reverse_cons, List.reverse_append, List.reverse_reverse,
      List.reverse_nil, List.append_assoc, List.singleton_append,
      List.nil_append, List.append_nil, List.cons_append]

theorem heading_prefix_shape (k : Nat) :
    chapter_num_heading k
      = '#' :: ((" Chapter ").data ++ (toString k).data) := rfl

theorem actual_heading_shape (k : Nat) (name X : List Char) :
    actual_heading k name ++ X
      = ('#' :: (((" Chapter ").data ++ (toString k).data) ++ [':']))
        ++ (' ' :: (name ++ X)) := by
  unfold actual_heading
  have h : ("# Chapter ").data = '#' :: (" Chapter ").data := rfl
  have h2 : (": ").data = ':' :: [' '] := rfl
  rw [h, h2]
  simp only [List.append_assoc, List.cons_append, List.singleton_append,
    List.nil_append]

theorem pyStrip_startsWith_heading (k : Nat) (name X : List Char) :
    pyStartsWith (pyStrip (actual_heading k name ++ X))
      (chapter_num_heading k) = true := by
  rw [actual_heading_shape k name X]
  obtain ⟨t', ht'⟩ := pyStrip_shape
    (show ('#').isWhitespace = false from rfl)
    (show (':').isWhitespace = false from rfl)
    ((" Chapter ").data ++ (toString k).data) (' ' :: (name ++ X))
  rw [ht', pyStartsWith_iff]
  refine ⟨':' :: t', ?_⟩
  rw [heading_prefix_shape]
  simp only [List.cons_append, List.append_assoc, List.singleton_append,
    List.nil_append]

theorem intercalate_cons_exists (sep a : List Char) (t : List (List Char)) :
    ∃ X, List.intercalate sep (a :: t) = a ++ X := by
  cases t with
  | nil => exact ⟨[], by simp [List.intercalate, List.intersperse]⟩
  | cons b t' =>
    refine ⟨sep ++ List.intercalate sep (b :: t'), ?_⟩
    simp [List.intercalate, List.intersperse, List.append_assoc]

/-- Claim C8 counterexample: with expected heading `# Chapter 1: Foo`, a
reply whose first line is `# Chapter 1: Bar` passes the guard (which only
checks the chapter-number prefix `# Chapter 1`), so the content is returned
unchanged and does not start with the exact expected heading. -/
theorem writeChapters_normalize_counterexample :
    writeChapters_normalize 1 ("Foo".data)
        (("# Chapter 1: Bar").data ++ '\n' :: ("body").data)
      = ("# Chapter 1: Bar").data ++ '\n' :: ("body").data ∧
    pyStartsWith (("# Chapter 1: Bar").data ++ '\n' :: ("body").data)
      (actual_heading 1 ("Foo".data)) = false := by
  exact ⟨by decide, by decide⟩

/-- Claim C8 as amended: after normalization the stripped content always
starts with `# Chapter {k}` (the chapter-number prefix the guard checks),
and whenever the generator's stripped reply did not start with that prefix,
the first line is replaced by — or the content is prefixed with — the exact
expected heading `# Chapter {k}: {name}`, so the result starts with it. -/
theorem writeChapters_normalize_heading (chapter_num : Nat)
    (abstraction_name chapter_content : List Char) :
    pyStartsWith
      (pyStrip (writeChapters_normalize chapter_num abstraction_name chapter_content))
      (chapter_num_heading chapter_num) = true ∧
    (pyStartsWith (pyStrip chapter_content) (chapter_num_heading chapter_num)
        = false →
      pyStartsWith (writeChapters_normalize chapter_num abstraction_name chapter_content)
        (actual_heading chapter_num abstraction_name) = true) := by
  constructor
  · unfold writeChapters_normalize
    split
    · rename_i hg
      exact hg
    · split
      · rw [List.append_assoc]
        exact pyStrip_startsWith_heading chapter_num abstraction_name
          (("\n\n").data ++ chapter_content)
      · split
        · rename_i hd tl heq hin
          obtain ⟨X, hX⟩ := intercalate_cons_exists (("\n").data)
            (actual_heading chapter_num abstraction_name) tl
          rw [hX]
          exact pyStrip_startsWith_heading chapter_num abstraction_name X
        · rw [List.append_assoc]
          exact pyStrip_startsWith_heading chapter_num abstraction_name
            (("\n\n").data ++ chapter_content)
  · intro hf
    unfold writeChapters_normalize
    split
    · rename_i hg
      exact absurd hg (by simp [hf])
    · split
      · rw [pyStartsWith_iff]
        exact ⟨("\n\n").data ++ chapter_content, List.append_assoc _ _ _⟩
      · split
        · rename_i hd tl heq hin
          obtain ⟨X, hX⟩ := intercalate_cons_exists (("\n").data)
            (actual_heading chapter_num abstraction_name) tl
          rw [hX, pyStartsWith_iff]
          exact ⟨X, rfl⟩
        · rw [pyStartsWith_iff]
          exact ⟨("\n\n").data ++ chapter_content, List.append_assoc _ _ _⟩

/-- Witness for the amended claim C8 at a concrete reply with no heading:
the exact heading is prepended. -/
theorem writeChapters_normalize_heading_witness :
    pyStartsWith
      (pyStrip (writeChapters_normalize 2 ("API".data) ("no heading".data)))
      (chapter_num_heading 2) = true ∧
    pyStartsWith (writeChapters_normalize 2 ("API".data) ("no heading".data))
      (actual_heading 2 ("API".data)) = true :=
  ⟨(writeChapters_normalize_heading 2 ("API".data) ("no heading".data)).1,
   (writeChapters_normalize_heading 2 ("API".data) ("no heading".data)).2 (by decide)⟩

/-! ## Claim C5: the `WriteChapters` batch accumulator
(nodes.py lines 932-1203)

The batch node's `exec` runs once per prepared item, in `chapter_order`
sequence, reading and appending the instance list
`self.chapters_written_so_far`.  The embedding threads that list explicitly
and records, for each item, the prompt sent to the generator and the
normalized chapter content.  `call_llm` is an oracle from the prompt text to
a reply. -/

/-- Model of Python `s.split(sep)` for a nonempty separator: split at each
non-overlapping occurrence, scanning left to right. -/
def pySplitSeq (sep : List Char) : List Char → List (List Char)
  | [] => [[]]
  | c :: rest =>
    if h : 0 < sep.length ∧ sep.isPrefixOf (c :: rest) = true then
      [] :: pySplitSeq sep (List.drop sep.length (c :: rest))
    else
      match pySplitSeq sep rest with
      | [] => [[c]]
      | hd :: tl => (c :: hd) :: tl
  termination_by l => l.length
  decreasing_by
    · simp only [List.length_drop, List.length_cons]
      omega
    · simp only [List.length_cons]
      omega

/-- Python `str.lower()`. -/
def pyLower (s : List Char) : List Char := s.map Char.toLower

/-- Python `str.capitalize()`: first character upper-cased, the rest
lower-cased. -/
def pyCapitalize : List Char → List Char
  | [] => []
  | c :: rest => Char.toUpper c :: rest.map Char.toLower

/-- One entry of the generator for `file_context_str` (lines 1053-1056):
`f"--- File: {idx_path.split('# ')[1] if '# ' in idx_path else idx_path} ---\n{content}"`. -/
def writeChapters_file_entry (idx_path content : List Char) : List Char :=
  ("--- File: ").data ++
    (if 2 ≤ (pySplitSeq (("# ").data) idx_path).length then
      (pySplitSeq (("# ").data) idx_path).getD 1 []
    else idx_path)
    ++ (" ---\n").data ++ content

/-- `file_context_str = "\n\n".join(...)` over the related-files map. -/
def writeChapters_file_context (m : List (List Char × List Char)) : List Char :=
  List.intercalate ("\n\n").data
    (m.map (fun p => writeChapters_file_entry p.1 p.2))

/-- One analyzed API call as interpolated into the prompt (lines 1095-1103).
Each field holds the `str(...)` rendering of `call.get(key, 'N/A')`, the
`'N/A'` default folded into the value. -/
structure ApiCall where
  calling_function_name : List Char
  api_endpoint : List Char
  http_method : List Char
  request_parameters : List Char
  response_usage : List Char
deriving DecidableEq, Repr

/-- One entry of `api_calls_for_chapter` (a file path with its analyzed
calls). -/
structure ApiFileInfo where
  file_path : List Char
  api_calls : List ApiCall
deriving DecidableEq, Repr

/-- The `api_call_prompt_lines` accumulation (lines 1089-1107). -/
def writeChapters_api_lines (abstraction_name api_info_note : List Char)
    (api_calls_for_chapter : List ApiFileInfo) : List (List Char) :=
  if api_calls_for_chapter = [] then []
  else
    let header := ("API Call Information for files related to \"").data
      ++ abstraction_name ++ ("\"").data ++ api_info_note ++ (":").data
    let fileBlock := fun (api_info : ApiFileInfo) =>
      (("In file `").data ++ api_info.file_path ++ ("`:").data) ::
        (if api_info.api_calls = [] then
          [("- No specific API calls found in the automated analysis for this file section, or the file was not a frontend file type.").data]
        else
          api_info.api_calls.flatMap (fun call =>
            [("- Function: `").data ++ call.calling_function_name
               ++ ("` calls API: `").data ++ call.api_endpoint
               ++ ("` (Method: ").data ++ call.http_method ++ (")").data,
             ("  Request Params: ").data ++ call.request_parameters,
             ("  Response Usage: ").data ++ call.response_usage]))
    header :: api_calls_for_chapter.flatMap fileBlock ++ [("\n").data]

/-- `api_call_prompt_section = "\n".join(api_call_prompt_lines)` (line 1107). -/
def writeChapters_api_section (abstraction_name api_info_note : List Char)
    (calls : List ApiFileInfo) : List Char :=
  List.intercalate ("\n").data
    (writeChapters_api_lines abstraction_name api_info_note calls)

/-- The language-dependent notes of lines 1062-1086 (all empty when the
language lower-cases to `english`). -/
structure WCNotes where
  language_instruction : List Char
  concept_details_note : List Char
  structure_note : List Char
  prev_summary_note : List Char
  instruction_lang_note : List Char
  mermaid_lang_note : List Char
  code_comment_note : List Char
  link_lang_note : List Char
  tone_note : List Char
  api_info_note : List Char
deriving DecidableEq, Repr

def writeChapters_notes (language : List Char) : WCNotes :=
  if pyLower language ≠ ("english").data then
    let lang_cap := pyCapitalize language
    { language_instruction :=
        ("IMPORTANT: Write this ENTIRE tutorial chapter in **").data ++ lang_cap
          ++ ("**. Some input context (like concept name, description, chapter list, previous summary, API call info) might already be in ").data
          ++ lang_cap
          ++ (", but you MUST translate ALL other generated content including explanations, examples, technical terms, and potentially code comments into ").data
          ++ lang_cap
          ++ (". DO NOT use English anywhere except in code syntax, required proper nouns, or when specified. The entire output MUST be in ").data
          ++ lang_cap ++ (".\n\n").data,
      concept_details_note := (" (Note: Provided in ").data ++ lang_cap ++ (")").data,
      structure_note := (" (Note: Chapter names might be in ").data ++ lang_cap ++ (")").data,
      prev_summary_note := (" (Note: This summary might be in ").data ++ lang_cap ++ (")").data,
      instruction_lang_note := (" (in ").data ++ lang_cap ++ (")").data,
      mermaid_lang_note := (" (Use ").data ++ lang_cap ++ (" for labels/text if appropriate)").data,
      code_comment_note := (" (Translate to ").data ++ lang_cap ++ (" if possible, otherwise keep minimal English for clarity)").data,
      link_lang_note := (" (Use the ").data ++ lang_cap ++ (" chapter title from the structure above)").data,
      tone_note := (" (appropriate for ").data ++ lang_cap ++ (" readers)").data,
      api_info_note := (" (Note: API call details might contain elements in ").data ++ lang_cap ++ (")").data }
  else
    { language_instruction := [], concept_details_note := [], structure_note := [],
      prev_summary_note := [], instruction_lang_note := [], mermaid_lang_note := [],
      code_comment_note := [], link_lang_note := [], tone_note := [],
      api_info_note := [] }

/-- One prepared batch item (`WriteChapters.prep`, lines 1011-1027), with the
fields that `exec` reads.  `use_cache` only selects the generator's cache
flag (claim C4) and does not influence the prompt text. -/
structure WCItem where
  chapter_num : Nat
  project_name : List Char
  abstraction_name : List Char
  abstraction_description : List Char
  full_chapter_listing : List Char
  language : List Char
  use_cache : Bool
  related_files_content_map : List (List Char × List Char)
  api_calls_for_chapter : List ApiFileInfo

/-- The full prompt of `WriteChapters.exec` (lines 1109-1177) as a function
of the item and of the string substituted for the
`previous_chapters_summary` placeholder. -/
def writeChapters_prompt (item : WCItem)
    (previous_chapters_summary_slot : List Char) : List Char :=
  let notes := writeChapters_notes item.language
  let chapter_num_str := (toString item.chapter_num).data
  let file_context_str := writeChapters_file_context item.related_files_content_map
  let api_call_prompt_section := writeChapters_api_section item.abstraction_name
    notes.api_info_note item.api_calls_for_chapter
  ("\n").data ++ notes.language_instruction
  ++ ("Write a very beginner-friendly tutorial chapter (in Markdown format) for the project ").data
  ++ item.project_name
  ++ (" about the concept: \"").data ++ item.abstraction_name
  ++ ("\". This is Chapter ").data ++ chapter_num_str
  ++ (".\n\nConcept Details").data ++ notes.concept_details_note
  ++ (":\n- Name: ").data ++ item.abstraction_name
  ++ ("\n- Description:\n").data ++ item.abstraction_description
  ++ ("\n\nComplete Tutorial Structure").data ++ notes.structure_note
  ++ (":\n").data ++ item.full_chapter_listing
  ++ ("\n\nContext from previous chapters").data ++ notes.prev_summary_note
  ++ (":\n").data ++ previous_chapters_summary_slot
  ++ ("\n\nRelevant Code Snippets (Code itself remains unchanged):\n").data
  ++ (if file_context_str ≠ [] then file_context_str
      else ("No specific code snippets provided for this abstraction.").data)
  ++ ("\n\n").data ++ api_call_prompt_section
  ++ ("\nInstructions for the chapter (Generate content in ").data
  ++ pyCapitalize item.language
  ++ (" unless specified otherwise):\n- Start with a clear heading (e.g., `# Chapter ").data
  ++ chapter_num_str
  ++ (": ").data ++ item.abstraction_name
  ++ ("`). Use the provided concept name.\n\n- If this is not the first chapter, begin with a brief transition from the previous chapter").data
  ++ notes.instruction_lang_note
  ++ (", referencing it with a proper Markdown link using its name").data
  ++ notes.link_lang_note
  ++ (".\n\n- Begin with a high-level motivation explaining what problem this abstraction solves").data
  ++ notes.instruction_lang_note
  ++ (". Start with a central use case as a concrete example. The whole chapter should guide the reader to understand how to solve this use case. Make it very minimal and friendly to beginners.\n\n- If the abstraction is complex, break it down into key concepts. Explain each concept one-by-one in a very beginner-friendly way").data
  ++ notes.instruction_lang_note
  ++ (".\n\n- Explain how to use this abstraction to solve the use case").data
  ++ notes.instruction_lang_note
  ++ (". Give example inputs and outputs for code snippets (if the output isn\x27t values, describe at a high level what will happen").data
  ++ notes.instruction_lang_note
  ++ (").\n\n- Each code block should be BELOW 10 lines! If longer code blocks are needed, break them down into smaller pieces and walk through them one-by-one. Aggresively simplify the code to make it minimal. Use comments").data
  ++ notes.code_comment_note
  ++ (" to skip non-important implementation details. Each code block should have a beginner friendly explanation right after it").data
  ++ notes.instruction_lang_note
  ++ (".\n\n- Describe the internal implementation to help understand what\x27s under the hood").data
  ++ notes.instruction_lang_note
  ++ (". First provide a non-code or code-light walkthrough on what happens step-by-step when the abstraction is called").data
  ++ notes.instruction_lang_note
  ++ (". It\x27s recommended to use a simple sequenceDiagram with a dummy example - keep it minimal with at most 5 participants to ensure clarity. If participant name has space, use: `participant QP as Query Processing`. ").data
  ++ notes.mermaid_lang_note
  ++ (".\n\n- Then dive deeper into code for the internal implementation with references to files. Provide example code blocks, but make them similarly simple and beginner-friendly. Explain").data
  ++ notes.instruction_lang_note
  ++ (".\n\n- **If API call information is provided above, integrate it naturally into the explanations.** For example, when discussing a function or a piece of code that makes an API call, describe the endpoint, parameters, and how the response is used, based on the provided API call details. This should be part of the regular explanation, not a separate, disconnected section. ").data
  ++ notes.instruction_lang_note
  ++ ("\n\n- IMPORTANT: When you need to refer to other core abstractions covered in other chapters, ALWAYS use proper Markdown links like this: [Chapter Title](filename.md). Use the Complete Tutorial Structure above to find the correct filename and the chapter title").data
  ++ notes.link_lang_note
  ++ (". Translate the surrounding text.\n\n- Use mermaid diagrams to illustrate complex concepts (```mermaid``` format). ").data
  ++ notes.mermaid_lang_note
  ++ (".\n\n- Heavily use analogies and examples throughout").data
  ++ notes.instruction_lang_note
  ++ (" to help beginners understand.\n\n- End the chapter with a brief conclusion that summarizes what was learned").data
  ++ notes.instruction_lang_note
  ++ (" and provides a transition to the next chapter").data
  ++ notes.instruction_lang_note
  ++ (". If there is a next chapter, use a proper Markdown link: [Next Chapter Title](next_chapter_filename)").data
  ++ notes.link_lang_note
  ++ (".\n\n- Ensure the tone is welcoming and easy for a newcomer to understand").data
  ++ notes.tone_note
  ++ (".\n\n- Output *only* the Markdown content for this chapter.\n\nNow, directly provide a super beginner-friendly Markdown output (DON\x27T need ```markdown``` tags):\n").data

/-- Per-item result: the prompt sent to the generator and the normalized
chapter content returned (and appended to the accumulator). -/
structure WCOut where
  prompt : List Char
  content : List Char

/-- One `exec(item)` call (lines 1036-1196): build
`previous_chapters_summary` by joining the accumulator with `"\n---\n"`,
substitute it (or the first-chapter placeholder when it is empty) into the
prompt, call the generator, and normalize the heading. -/
def writeChapters_exec_item (gen : List Char → List Char) (item : WCItem)
    (chapters_written_so_far : List (List Char)) : WCOut :=
  let previous_chapters_summary :=
    List.intercalate ("\n---\n").data chapters_written_so_far
  let prompt := writeChapters_prompt item
    (if previous_chapters_summary ≠ [] then previous_chapters_summary
     else ("This is the first chapter.").data)
  let chapter_content := gen prompt
  ⟨prompt, writeChapters_normalize item.chapter_num item.abstraction_name
    chapter_content⟩

/-- The sequential batch run: each item's result content is appended to the
accumulator read by the next item (lines 947-949, 1060, 1194). -/
def writeChapters_run_aux (gen : List Char → List Char) :
    List WCItem → List (List Char) → List WCOut
  | [], _ => []
  | it :: rest, acc =>
    let out := writeChapters_exec_item gen it acc
    out :: writeChapters_run_aux gen rest (acc ++ [out.content])

def writeChapters_run (gen : List Char → List Char) (items : List WCItem) :
    List WCOut :=
  writeChapters_run_aux gen items []

theorem writeChapters_run_aux_length (gen : List Char → List Char) :
    ∀ (items : List WCItem) (acc : List (List Char)),
      (writeChapters_run_aux gen items acc).length = items.length
  | [], _ => rfl
  | it :: rest, acc => by
    simp only [writeChapters_run_aux, List.length_cons]
    rw [writeChapters_run_aux_length gen rest]

theorem writeChapters_run_length (gen : List Char → List Char)
    (items : List WCItem) :
    (writeChapters_run gen items).length = items.length :=
  writeChapters_run_aux_length gen items []

theorem actual_heading_ne_nil (k : Nat) (name : List Char) :
    actual_heading k name ≠ [] := by
  unfold actual_heading
  apply List.append_ne_nil_of_left_ne_nil
  apply List.append_ne_nil_of_left_ne_nil
  apply List.append_ne_nil_of_left_ne_nil
  decide

theorem writeChapters_normalize_ne_nil (k : Nat) (name content : List Char) :
    writeChapters_normalize k name content ≠ [] := by
  unfold writeChapters_normalize
  split
  · rename_i hg
    intro hc
    subst hc
    rw [show pyStrip ([] : List Char) = [] from rfl, heading_prefix_shape] at hg
    simp [pyStartsWith] at hg
  · split
    · exact List.append_ne_nil_of_left_ne_nil
        (List.append_ne_nil_of_left_ne_nil (actual_heading_ne_nil k name) _) _
    · split
      · rename_i hd tl heq hin
        obtain ⟨X, hX⟩ := intercalate_cons_exists (("\n").data)
          (actual_heading k name) tl
        rw [hX]
        exact List.append_ne_nil_of_left_ne_nil (actual_heading_ne_nil k name) _
      · exact List.append_ne_nil_of_left_ne_nil
          (List.append_ne_nil_of_left_ne_nil (actual_heading_ne_nil k name) _) _

theorem writeChapters_run_aux_get (gen : List Char → List Char) :
    ∀ (items : List WCItem) (acc : List (List Char)) (k : Nat)
      (hk : k < (writeChapters_run_aux gen items acc).length)
      (hk' : k < items.length),
      (writeChapters_run_aux gen items acc).get ⟨k, hk⟩ =
        writeChapters_exec_item gen (items.get ⟨k, hk'⟩)
          (acc ++ ((writeChapters_run_aux gen items acc).take k).map WCOut.content)
  | [], _, k, _, hk' => absurd hk' (by simp)
  | it :: rest, acc, 0, hk, hk' => by
    simp only [writeChapters_run_aux, List.take_zero, List.map_nil,
      List.append_nil]
    rfl
  | it :: rest, acc, k + 1, hk, hk' => by
    simp only [writeChapters_run_aux, List.take_succ_cons, List.map_cons] at hk ⊢
    have hk2 : k < (writeChapters_run_aux gen rest
        (acc ++ [(writeChapters_exec_item gen it acc).content])).length := by
      simpa using hk
    have hk2' : k < rest.length := by simpa using hk'
    have := writeChapters_run_aux_get gen rest
      (acc ++ [(writeChapters_exec_item gen it acc).content]) k hk2 hk2'
    rw [List.get_cons_succ]
    rw [this]
    rw [List.append_assoc]
    rfl

/-- Claim C5: in the batch run over the prepared chapter items, the prompt of
the item at 0-based position `k` carries as previous-chapters context exactly
the already generated chapter bodies of positions `0..k-1` joined with
`"\n---\n"` — the placeholder `This is the first chapter.` when `k = 0` — and
hence depends on no chapter at position `k` or later. -/
theorem writeChapters_prompt_context (gen : List Char → List Char)
    (items : List WCItem) (k : Nat) (hk : k < items.length) :
    ((writeChapters_run gen items).get
        ⟨k, (writeChapters_run_length gen items).symm ▸ hk⟩).prompt =
      writeChapters_prompt (items.get ⟨k, hk⟩)
        (if k = 0 then ("This is the first chapter.").data
         else List.intercalate ("\n---\n").data
           (((writeChapters_run gen items).take k).map WCOut.content)) := by
  have hget := writeChapters_run_aux_get gen items [] k
    ((writeChapters_run_length gen items).symm ▸ hk) hk
  show ((writeChapters_run_aux gen items []).get _).prompt = _
  rw [hget]
  unfold writeChapters_exec_item
  dsimp only
  refine congrArg _ ?_
  rw [List.nil_append]
  by_cases hk0 : k = 0
  · subst hk0
    simp only [List.take_zero, List.map_nil, if_pos rfl]
    simp [List.intercalate]
  · rw [if_neg hk0]
    cases items with
    | nil => simp at hk
    | cons it0 irest =>
      obtain ⟨k', rfl⟩ : ∃ k', k = k' + 1 := ⟨k - 1, by omega⟩
      rw [show writeChapters_run gen (it0 :: irest)
          = writeChapters_exec_item gen it0 [] ::
            writeChapters_run_aux gen irest
              ([] ++ [(writeChapters_exec_item gen it0 []).content]) from rfl,
        show writeChapters_run_aux gen (it0 :: irest) []
          = writeChapters_exec_item gen it0 [] ::
            writeChapters_run_aux gen irest
              ([] ++ [(writeChapters_exec_item gen it0 []).content]) from rfl]
      rw [List.take_succ_cons, List.map_cons]
      have hc0 : (writeChapters_exec_item gen it0 []).content ≠ [] := by
        unfold writeChapters_exec_item
        dsimp only
        exact writeChapters_normalize_ne_nil _ _ _
      obtain ⟨X, hX⟩ := intercalate_cons_exists (("\n---\n").data)
        ((writeChapters_exec_item gen it0 []).content)
        ((List.take k' (writeChapters_run_aux gen irest
          ([] ++ [(writeChapters_exec_item gen it0 []).content]))).map WCOut.content)
      rw [hX]
      rw [if_pos (List.append_ne_nil_of_left_ne_nil hc0 X)]

/-- Concrete generator for the claim C5 witness. -/
def wcSampleGen : List Char → List Char := fun _ => ("chapter body").data

/-- Concrete batch item for the claim C5 witness. -/
def wcSampleItem (n : Nat) (nm : String) : WCItem :=
  { chapter_num := n, project_name := ("Proj").data,
    abstraction_name := nm.data, abstraction_description := ("desc").data,
    full_chapter_listing := ("1. [A](01_a.md)").data,
    language := ("english").data, use_cache := true,
    related_files_content_map := [], api_calls_for_chapter := [] }

def wcSampleItems : List WCItem := [wcSampleItem 1 "A", wcSampleItem 2 "B"]

/-- Witness for claim C5 at position 1 of a concrete two-item batch: the
second prompt's previous-chapters slot is the joined first chapter body. -/
theorem writeChapters_prompt_context_witness :
    ((writeChapters_run wcSampleGen wcSampleItems).get
        ⟨1, (writeChapters_run_length wcSampleGen wcSampleItems).symm ▸
          (by decide : 1 < wcSampleItems.length)⟩).prompt =
      writeChapters_prompt (wcSampleItems.get ⟨1, by decide⟩)
        (if 1 = 0 then ("This is the first chapter.").data
         else List.intercalate ("\n---\n").data
           (((writeChapters_run wcSampleGen wcSampleItems).take 1).map
             WCOut.content)) :=
  writeChapters_prompt_context wcSampleGen wcSampleItems 1 (by decide)

/-! ## Claim C10: per-file error containment in `AnalyzeAPICalls.exec`
(nodes.py lines 561-660) and `AnalyzeFastAPIEndpoints.exec`
(lines 690-826)

Both loops call the generator once per file inside a `try` block whose
`except yaml.YAMLError` and `except Exception` clauses catch every failure,
log it, and move on to the next file.  The generator and the YAML parser are
oracles; the prompt construction is absorbed into the generator oracle since
the reply is unconstrained anyway. -/

/-- A source file handed to the per-file analysis loop. -/
structure AnalyzedFile where
  path : String
  content : String

/-- A parsed YAML document, as far as the `isinstance(x, list)` check cares:
a list of items, or anything else (mapping, scalar, null). -/
inductive YVal where
  | arr (items : List YVal)
  | other

/-- Exceptions that can abort one file's processing: a failure raised by
`call_llm`, or a `yaml.YAMLError` raised by `yaml.safe_load`. -/
inductive PyFileExc where
  | genFailure
  | yamlError
deriving DecidableEq, Repr

/-- The fenced-block extraction shared by both nodes (lines 623-627 and
794-797):

    yaml_str = response.strip()
    if "```yaml" in yaml_str: yaml_str = yaml_str.split("```yaml")[1].split("```")[0].strip()
    elif "```" in yaml_str: yaml_str = yaml_str.split("```")[1].strip()

`sep in s` holds exactly when `s.split(sep)` has at least two parts, and
`String.splitOn` has the semantics of Python `split` for a nonempty
separator, so the guarded `[1]` and `[0]` accesses cannot fail. -/
def extract_yaml_block (response : String) : String :=
  let y := response.trim
  if 2 ≤ (y.splitOn "```yaml").length then
    ((((y.splitOn "```yaml").getD 1 "").splitOn "```").getD 0 "").trim
  else if 2 ≤ (y.splitOn "```").length then
    ((y.splitOn "```").getD 1 "").trim
  else y

/-- The body of the per-file `try` block of `AnalyzeAPICalls.exec`
(lines 621-646): call the generator, extract the fenced block, parse it (an
empty block is `[]` without parsing), coerce a non-list document to `[]`
with a warning, and produce an entry only when the list is nonempty.
Exceptions propagate as `.error`. -/
def analyzeAPICalls_try_file (llm : AnalyzedFile → Except PyFileExc String)
    (parseYaml : String → Except PyFileExc YVal) (f : AnalyzedFile) :
    Except PyFileExc (Option (String × List YVal)) :=
  match llm f with
  | .error e => .error e
  | .ok response =>
    let yaml_str := extract_yaml_block response
    match (if yaml_str = "" then Except.ok ([] : List YVal)
           else
             match parseYaml yaml_str with
             | .error e => .error e
             | .ok (.arr l) => .ok l
             | .ok .other => .ok []) with
    | .error e => .error e
    | .ok api_calls_in_file =>
      .ok (match api_calls_in_file with
           | [] => none
           | _ :: _ => some (f.path, api_calls_in_file))

/-- One file with its surrounding `except yaml.YAMLError` / `except
Exception` clauses (lines 648-653): every exception from the try body is
caught and logged, and the file contributes no entry. -/
def analyzeAPICalls_process_file (llm : AnalyzedFile → Except PyFileExc String)
    (parseYaml : String → Except PyFileExc YVal) (f : AnalyzedFile) :
    Option (String × List YVal) :=
  match analyzeAPICalls_try_file llm parseYaml f with
  | .ok r => r
  | .error _ => none

/-- The `for file_info in frontend_files` loop (lines 573-660), accumulating
`all_api_calls_info` in order. -/
def analyzeAPICalls_exec (llm : AnalyzedFile → Except PyFileExc String)
    (parseYaml : String → Except PyFileExc YVal) :
    List AnalyzedFile → List (String × List YVal)
  | [] => []
  | f :: rest =>
    match analyzeAPICalls_process_file llm parseYaml f with
    | some entry => entry :: analyzeAPICalls_exec llm parseYaml rest
    | none => analyzeAPICalls_exec llm parseYaml rest

/-- The per-file `try` body of `AnalyzeFastAPIEndpoints.exec`
(lines 791-813), identical in structure to `AnalyzeAPICalls`, producing
`endpoints` entries. -/
def analyzeFastAPIEndpoints_try_file
    (llm : AnalyzedFile → Except PyFileExc String)
    (parseYaml : String → Except PyFileExc YVal) (f : AnalyzedFile) :
    Except PyFileExc (Option (String × List YVal)) :=
  match llm f with
  | .error e => .error e
  | .ok response =>
    let yaml_str := extract_yaml_block response
    match (if yaml_str = "" then Except.ok ([] : List YVal)
           else
             match parseYaml yaml_str with
             | .error e => .error e
             | .ok (.arr l) => .ok l
             | .ok .other => .ok []) with
    | .error e => .error e
    | .ok endpoints_in_file =>
      .ok (match endpoints_in_file with
           | [] => none
           | _ :: _ => some (f.path, endpoints_in_file))

/-- The `except` clauses of `AnalyzeFastAPIEndpoints` (lines 815-820). -/
def analyzeFastAPIEndpoints_process_file
    (llm : AnalyzedFile → Except PyFileExc String)
    (parseYaml : String → Except PyFileExc YVal) (f : AnalyzedFile) :
    Option (String × List YVal) :=
  match analyzeFastAPIEndpoints_try_file llm parseYaml f with
  | .ok r => r
  | .error _ => none

/-- The `for file_info in python_files` loop (lines 702-826). -/
def analyzeFastAPIEndpoints_exec
    (llm : AnalyzedFile → Except PyFileExc String)
    (parseYaml : String → Except PyFileExc YVal) :
    List AnalyzedFile → List (String × List YVal)
  | [] => []
  | f :: rest =>
    match analyzeFastAPIEndpoints_process_file llm parseYaml f with
    | some entry => entry :: analyzeFastAPIEndpoints_exec llm parseYaml rest
    | none => analyzeFastAPIEndpoints_exec llm parseYaml rest

theorem analyzeAPICalls_process_file_some
    {llm : AnalyzedFile → Except PyFileExc String}
    {parseYaml : String → Except PyFileExc YVal} {f : AnalyzedFile}
    {entry : String × List YVal}
    (h : analyzeAPICalls_process_file llm parseYaml f = some entry) :
    entry.1 = f.path ∧ entry.2 ≠ [] := by
  unfold analyzeAPICalls_process_file at h
  split at h
  · rename_i r htry
    unfold analyzeAPICalls_try_file at htry
    split at htry
    · exact Except.noConfusion htry
    · dsimp only at htry
      split at htry
      · exact Except.noConfusion htry
      · rename_i api_calls heq
        injection htry with h2
        subst h2
        split at h
        · exact Option.noConfusion h
        · injection h with h3
          subst h3
          exact ⟨rfl, by simp⟩
  · exact Option.noConfusion h

theorem analyzeFastAPIEndpoints_process_file_some
    {llm : AnalyzedFile → Except PyFileExc String}
    {parseYaml : String → Except PyFileExc YVal} {f : AnalyzedFile}
    {entry : String × List YVal}
    (h : analyzeFastAPIEndpoints_process_file llm parseYaml f = some entry) :
    entry.1 = f.path ∧ entry.2 ≠ [] := by
  unfold analyzeFastAPIEndpoints_process_file at h
  split at h
  · rename_i r htry
    unfold analyzeFastAPIEndpoints_try_file at htry
    split at htry
    · exact Except.noConfusion htry
    · dsimp only at htry
      split at htry
      · exact Except.noConfusion htry
      · rename_i endpoints heq
        injection htry with h2
        subst h2
        split at h
        · exact Option.noConfusion h
        · injection h with h3
          subst h3
          exact ⟨rfl, by simp⟩
  · exact Option.noConfusion h

theorem analyzeAPICalls_exec_entries
    (llm : AnalyzedFile → Except PyFileExc String)
    (parseYaml : String → Except PyFileExc YVal) :
    ∀ (files : List AnalyzedFile),
      ∀ e ∈ analyzeAPICalls_exec llm parseYaml files,
        e.2 ≠ [] ∧ ∃ f ∈ files, e.1 = f.path
  | [], e, he => absurd he (by simp [analyzeAPICalls_exec])
  | f :: rest, e, he => by
    unfold analyzeAPICalls_exec at he
    split at he
    · rename_i entry hp
      rcases List.mem_cons.mp he with rfl | he'
      · obtain ⟨h1, h2⟩ := analyzeAPICalls_process_file_some hp
        exact ⟨h2, f, List.mem_cons_self f rest, h1⟩
      · obtain ⟨h2, f', hf', h1⟩ :=
          analyzeAPICalls_exec_entries llm parseYaml rest e he'
        exact ⟨h2, f', List.mem_cons_of_mem f hf', h1⟩
    · obtain ⟨h2, f', hf', h1⟩ :=
        analyzeAPICalls_exec_entries llm parseYaml rest e he
      exact ⟨h2, f', List.mem_cons_of_mem f hf', h1⟩

theorem analyzeFastAPIEndpoints_exec_entries
    (llm : AnalyzedFile → Except PyFileExc String)
    (parseYaml : String → Except PyFileExc YVal) :
    ∀ (files : List AnalyzedFile),
      ∀ e ∈ analyzeFastAPIEndpoints_exec llm parseYaml files,
        e.2 ≠ [] ∧ ∃ f ∈ files, e.1 = f.path
  | [], e, he => absurd he (by simp [analyzeFastAPIEndpoints_exec])
  | f :: rest, e, he => by
    unfold analyzeFastAPIEndpoints_exec at he
    split at he
    · rename_i entry hp
      rcases List.mem_cons.mp he with rfl | he'
      · obtain ⟨h1, h2⟩ := analyzeFastAPIEndpoints_process_file_some hp
        exact ⟨h2, f, List.mem_cons_self f rest, h1⟩
      · obtain ⟨h2, f', hf', h1⟩ :=
          analyzeFastAPIEndpoints_exec_entries llm parseYaml rest e he'
        exact ⟨h2, f', List.mem_cons_of_mem f hf', h1⟩
    · obtain ⟨h2, f', hf', h1⟩ :=
        analyzeFastAPIEndpoints_exec_entries llm parseYaml rest e he
      exact ⟨h2, f', List.mem_cons_of_mem f hf', h1⟩

theorem analyzeAPICalls_gen_error
    {llm : AnalyzedFile → Except PyFileExc String}
    {parseYaml : String → Except PyFileExc YVal} {f : AnalyzedFile}
    {err : PyFileExc} (h : llm f = .error err) :
    analyzeAPICalls_process_file llm parseYaml f = none := by
  unfold analyzeAPICalls_process_file analyzeAPICalls_try_file
  rw [h]

theorem analyzeFastAPIEndpoints_gen_error
    {llm : AnalyzedFile → Except PyFileExc String}
    {parseYaml : String → Except PyFileExc YVal} {f : AnalyzedFile}
    {err : PyFileExc} (h : llm f = .error err) :
    analyzeFastAPIEndpoints_process_file llm parseYaml f = none := by
  unfold analyzeFastAPIEndpoints_process_file analyzeFastAPIEndpoints_try_file
  rw [h]

theorem analyzeAPICalls_parse_error
    {llm : AnalyzedFile → Except PyFileExc String}
    {parseYaml : String → Except PyFileExc YVal} {f : AnalyzedFile}
    {resp : String} {err : PyFileExc} (hr : llm f = .ok resp)
    (hp : parseYaml (extract_yaml_block resp) = .error err) :
    analyzeAPICalls_process_file llm parseYaml f = none := by
  unfold analyzeAPICalls_process_file analyzeAPICalls_try_file
  rw [hr]
  dsimp only
  by_cases hempty : extract_yaml_block resp = ""
  · rw [if_pos hempty]
  · rw [if_neg hempty, hp]

theorem analyzeFastAPIEndpoints_parse_error
    {llm : AnalyzedFile → Except PyFileExc String}
    {parseYaml : String → Except PyFileExc YVal} {f : AnalyzedFile}
    {resp : String} {err : PyFileExc} (hr : llm f = .ok resp)
    (hp : parseYaml (extract_yaml_block resp) = .error err) :
    analyzeFastAPIEndpoints_process_file llm parseYaml f = none := by
  unfold analyzeFastAPIEndpoints_process_file analyzeFastAPIEndpoints_try_file
  rw [hr]
  dsimp only
  by_cases hempty : extract_yaml_block resp = ""
  · rw [if_pos hempty]
  · rw [if_neg hempty, hp]

theorem analyzeAPICalls_not_list
    {llm : AnalyzedFile → Except PyFileExc String}
    {parseYaml : String → Except PyFileExc YVal} {f : AnalyzedFile}
    {resp : String} (hr : llm f = .ok resp)
    (hp : parseYaml (extract_yaml_block resp) = .ok .other) :
    analyzeAPICalls_process_file llm parseYaml f = none := by
  unfold analyzeAPICalls_process_file analyzeAPICalls_try_file
  rw [hr]
  dsimp only
  by_cases hempty : extract_yaml_block resp = ""
  · rw [if_pos hempty]
  · rw [if_neg hempty, hp]

theorem analyzeFastAPIEndpoints_not_list
    {llm : AnalyzedFile → Except PyFileExc String}
    {parseYaml : String → Except PyFileExc YVal} {f : AnalyzedFile}
    {resp : String} (hr : llm f = .ok resp)
    (hp : parseYaml (extract_yaml_block resp) = .ok .other) :
    analyzeFastAPIEndpoints_process_file llm parseYaml f = none := by
  unfold analyzeFastAPIEndpoints_process_file analyzeFastAPIEndpoints_try_file
  rw [hr]
  dsimp only
  by_cases hempty : extract_yaml_block resp = ""
  · rw [if_pos hempty]
  · rw [if_neg hempty, hp]

/-- Claim C10: in `AnalyzeAPICalls.exec` and `AnalyzeFastAPIEndpoints.exec`,
every per-file failure — a generation failure, a YAML parse error, or a
non-list parsed reply — is absorbed by the surrounding `except` clauses and
makes that file contribute no entry, and every entry of the returned list
pairs one of the input files' paths with a nonempty parsed list. -/
theorem analyze_api_calls_error_containment
    (llm : AnalyzedFile → Except PyFileExc String)
    (parseYaml : String → Except PyFileExc YVal)
    (files : List AnalyzedFile) :
    (∀ e ∈ analyzeAPICalls_exec llm parseYaml files,
      e.2 ≠ [] ∧ ∃ f ∈ files, e.1 = f.path) ∧
    (∀ e ∈ analyzeFastAPIEndpoints_exec llm parseYaml files,
      e.2 ≠ [] ∧ ∃ f ∈ files, e.1 = f.path) ∧
    (∀ f err, llm f = .error err →
      analyzeAPICalls_process_file llm parseYaml f = none ∧
      analyzeFastAPIEndpoints_process_file llm parseYaml f = none) ∧
    (∀ f resp err, llm f = .ok resp →
      parseYaml (extract_yaml_block resp) = .error err →
      analyzeAPICalls_process_file llm parseYaml f = none ∧
      analyzeFastAPIEndpoints_process_file llm parseYaml f = none) ∧
    (∀ f resp, llm f = .ok resp →
      parseYaml (extract_yaml_block resp) = .ok .other →
      analyzeAPICalls_process_file llm parseYaml f = none ∧
      analyzeFastAPIEndpoints_process_file llm parseYaml f = none) := by
  refine ⟨analyzeAPICalls_exec_entries llm parseYaml files,
    analyzeFastAPIEndpoints_exec_entries llm parseYaml files, ?_, ?_, ?_⟩
  · intro f err h
    exact ⟨analyzeAPICalls_gen_error h, analyzeFastAPIEndpoints_gen_error h⟩
  · intro f resp err hr hp
    exact ⟨analyzeAPICalls_parse_error hr hp,
      analyzeFastAPIEndpoints_parse_error hr hp⟩
  · intro f resp hr hp
    exact ⟨analyzeAPICalls_not_list hr hp,
      analyzeFastAPIEndpoints_not_list hr hp⟩

def apiSampleFile : AnalyzedFile := ⟨"frontend/app.js", "fetch(url)"⟩

def apiSampleLLM : AnalyzedFile → Except PyFileExc String :=
  fun _ => .error .genFailure

def apiSampleParse : String → Except PyFileExc YVal := fun _ => .ok .other

/-- Witness for claim C10: a file whose generation fails contributes no
entry in either node. -/
theorem analyze_api_calls_error_containment_witness :
    analyzeAPICalls_process_file apiSampleLLM apiSampleParse apiSampleFile
      = none ∧
    analyzeFastAPIEndpoints_process_file apiSampleLLM apiSampleParse
      apiSampleFile = none :=
  (analyze_api_calls_error_containment apiSampleLLM apiSampleParse
    [apiSampleFile]).2.2.1 apiSampleFile .genFailure rfl
